import Mathlib

/-!
Verification development for the insurance-FAQ chatbot backend
(`backend/app`): shallow embeddings of the tiered query-resolution
pipeline — intent routing, the cache chain, candidate re-ranking,
answer generation, streaming token filtering and the cache service —
together with theorems checking the specification's claims against them.

Python strings are modelled as `List Char`; Python's `in` substring
test, `str.lower`, `str.strip` and `str.split()` are modelled by the
executable helpers below.
-/

set_option autoImplicit false

namespace Chatbot

/-- Python strings, modelled as lists of characters. -/
abbrev Str := List Char

/-- Does `s` start with the pattern `d`?  (Scan used by `substrB`.) -/
def startsWithB : Str → Str → Bool
  | [], _ => true
  | _ :: _, [] => false
  | a :: d, b :: s => a == b && startsWithB d s

/-- Python's `d in s` substring test. -/
def substrB (d : Str) : Str → Bool
  | [] => d.isEmpty
  | c :: t => startsWithB d (c :: t) || substrB d t

/-- Python `str.lower()` (ASCII, which covers all strings in the code). -/
def lowerStr (s : Str) : Str := s.map Char.toLower

/-- Python `any(char.isdigit() for char in s)` / `re.search(r"\d", s)`. -/
def hasDigit (s : Str) : Bool := s.any Char.isDigit

/-- Python `str.strip()`: drop whitespace from both ends. -/
def trimStr (s : Str) : Str :=
  ((s.dropWhile Char.isWhitespace).reverse.dropWhile Char.isWhitespace).reverse

/-- Python `str.split()`: split on whitespace runs, dropping empty parts. -/
def splitWS (s : Str) : List Str :=
  (List.splitOnP Char.isWhitespace s).filter (fun w => !w.isEmpty)

/-- Python `l[-n:]`: the last `n` elements of a list. -/
def lastN {α : Type} (n : Nat) (l : List α) : List α := l.drop (l.length - n)

/-!
### Candidate re-ranking (chat.py, blocking path lines 183–199 and
streaming path lines 354–364)

Both request paths score every retrieved chunk, sort by
`(score, -original_rank)` descending (Python `list.sort(..., reverse=True)`)
and keep the first three.  The two transcriptions are kept separate so that
their agreement can be stated as a theorem.
-/

/-- One entry of Python's `scored_chunks` list of dicts. -/
structure ScoredChunk where
  text : Str
  score : Int
  original_rank : Nat
deriving DecidableEq, Repr

/-- `[w.lower() for w in search_query.split() if len(w) > 3]` (blocking path). -/
def keywordsBlocking (search_query : Str) : List Str :=
  ((splitWS search_query).filter (fun w => 3 < w.length)).map lowerStr

/-- Chunk score, blocking path: +10 per keyword contained in the lowered
chunk, +5 for any digit, −20 for disclaimer / registered-office boilerplate,
−10 for OCR garbage markers. -/
def chunkScoreBlocking (keywords : List Str) (chunk : Str) : Int :=
  10 * ((keywords.filter (fun kw => substrB kw (lowerStr chunk))).length : Int)
    + (if hasDigit chunk then 5 else 0)
    + (if substrB ("disclaimer".toList) (lowerStr chunk)
          || substrB ("regd. office".toList) (lowerStr chunk) then -20 else 0)
    + (if substrB ("(cid:".toList) (lowerStr chunk) then -10 else 0)

/-- `for i, chunk in enumerate(raw_chunks): ... scored_chunks.append(...)`
(blocking path): every raw chunk is scored and kept, none is dropped. -/
def scoredChunksBlocking (search_query : Str) (raw_chunks : List Str) : List ScoredChunk :=
  raw_chunks.enum.map (fun p => ⟨p.2, chunkScoreBlocking (keywordsBlocking search_query) p.2, p.1⟩)

/-- The order realised by `sort(key=lambda x: (x["score"], -x["original_rank"]),
reverse=True)`: higher score first, ties broken by the earlier original rank. -/
def chunkBefore (a b : ScoredChunk) : Prop :=
  b.score < a.score ∨ (a.score = b.score ∧ a.original_rank ≤ b.original_rank)

instance : DecidableRel chunkBefore := fun a b => by
  unfold chunkBefore; infer_instance

instance : IsTotal ScoredChunk chunkBefore :=
  ⟨by intro a b; unfold chunkBefore; omega⟩

instance : IsTrans ScoredChunk chunkBefore :=
  ⟨by intro a b c; unfold chunkBefore; omega⟩

/-- `scored_chunks` after the in-place sort (blocking path). -/
def sortedScoredBlocking (search_query : Str) (raw_chunks : List Str) : List ScoredChunk :=
  List.insertionSort chunkBefore (scoredChunksBlocking search_query raw_chunks)

/-- `final_chunks = [x["text"] for x in scored_chunks[:3]]` (blocking path). -/
def rerankBlocking (search_query : Str) (raw_chunks : List Str) : List Str :=
  ((sortedScoredBlocking search_query raw_chunks).take 3).map ScoredChunk.text

/-- Streaming-path transcription of the keyword extraction (line 355). -/
def keywordsStreaming (search_query : Str) : List Str :=
  ((splitWS search_query).filter (fun w => 3 < w.length)).map lowerStr

/-- Streaming-path transcription of the chunk score (lines 357–361). -/
def chunkScoreStreaming (keywords : List Str) (chunk : Str) : Int :=
  10 * ((keywords.filter (fun kw => substrB kw (lowerStr chunk))).length : Int)
    + (if hasDigit chunk then 5 else 0)
    + (if substrB ("disclaimer".toList) (lowerStr chunk)
          || substrB ("regd. office".toList) (lowerStr chunk) then -20 else 0)
    + (if substrB ("(cid:".toList) (lowerStr chunk) then -10 else 0)

/-- Streaming-path `scored_chunks` before sorting (line 362). -/
def scoredChunksStreaming (search_query : Str) (raw_chunks : List Str) : List ScoredChunk :=
  raw_chunks.enum.map (fun p => ⟨p.2, chunkScoreStreaming (keywordsStreaming search_query) p.2, p.1⟩)

/-- Streaming-path `scored_chunks` after sorting (line 363). -/
def sortedScoredStreaming (search_query : Str) (raw_chunks : List Str) : List ScoredChunk :=
  List.insertionSort chunkBefore (scoredChunksStreaming search_query raw_chunks)

/-- Streaming-path `final_chunks` (line 364). -/
def rerankStreaming (search_query : Str) (raw_chunks : List Str) : List Str :=
  ((sortedScoredStreaming search_query raw_chunks).take 3).map ScoredChunk.text

/-- The worked re-ranking example of the specification. -/
def exQuery : Str := "what is the sum insured".toList

/-- A boilerplate disclaimer chunk, first in retrieval order. -/
def exDisclaimer : Str := "Disclaimer: this document is for reference".toList

/-- The informative chunk with the keyword and a digit, second in
retrieval order. -/
def exSumInsured : Str := "Sum Insured is 5 Lakhs".toList

/-- A registered-office boilerplate chunk, third in retrieval order. -/
def exRegdOffice : Str := "Regd. Office at Mumbai".toList

/-- A neutral chunk used to exercise the top-3 cut. -/
def exNeutral : Str := "some generic wording".toList

/-- All-boilerplate candidate list for the C9 counterexample. -/
def boilerplateOnlyChunks : List Str :=
  [("Disclaimer: terms and conditions apply".toList),
   ("Regd. Office at Mumbai".toList),
   ("Disclaimer: read the policy wording".toList)]

/-!
### Intent routing (chat.py lines 109–110 blocking, 269 and 286–287 streaming)

The blocking endpoint checks one summary-keyword list and nothing else; the
streaming generator checks a smaller summary list and then a comparison
trigger list.  Matching is lower-cased substring containment.
-/

/-- `summary_keywords` of the blocking endpoint (line 109). -/
def summary_keywords_blocking : List Str :=
  [("various plans".toList), ("all plans".toList), ("list plans".toList),
   ("compare plans".toList), ("types of insurance".toList), ("what plans".toList)]

/-- `summary_keywords` of the streaming generator (line 269). -/
def summary_keywords_streaming : List Str :=
  [("various plans".toList), ("all plans".toList), ("list plans".toList),
   ("types of insurance".toList), ("what plans".toList)]

/-- `comparison_keywords` of the streaming generator (line 286). -/
def comparison_keywords : List Str :=
  [("compare".toList), ("vs".toList), ("versus".toList), ("difference between".toList)]

/-- `any(keyword in search_query.lower() for keyword in summary_keywords)`,
blocking endpoint. -/
def isSummaryBlocking (search_query : Str) : Bool :=
  summary_keywords_blocking.any (fun k => substrB k (lowerStr search_query))

/-- Summary-intent test of the streaming generator. -/
def isSummaryStreaming (search_query : Str) : Bool :=
  summary_keywords_streaming.any (fun k => substrB k (lowerStr search_query))

/-- Comparison-intent trigger of the streaming generator. -/
def isComparisonStreaming (search_query : Str) : Bool :=
  comparison_keywords.any (fun k => substrB k (lowerStr search_query))

/-!
### The cache chain (chat.py lines 127–153 blocking, 313–344 streaming)

The outcomes of the three cache tiers are supplied as oracles; the chain
models which tiers can short-circuit the request and whether the semantic
tier (`search_cache`) is consulted at all.  In the blocking endpoint the
layer-0, layer-1 and layer-2 hit branches consist of a comment and `pass`:
a hit is computed and then discarded (the code that would return it sits in
an orphaned, mis-indented block further down the file), so the blocking
chain never short-circuits.
-/

/-- A message of the session history (`{"role": ..., "content": ...}`). -/
structure Msg where
  role : Str
  content : Str
deriving DecidableEq, Repr

/-- Per-request oracles for the three cache tiers: the curated FAQ answer,
the exact-match payload and the semantic-cache payload that the stores
would return if asked. -/
structure ChainOracles where
  faqHit : Option Str
  redisHit : Option (Str × List Str)
  semanticHit : Option (Str × List Str)

/-- A cached result: answer, sources, debug tag. -/
abbrev CachedAnswer := Str × List Str × String

/-- Streaming cache chain: walks layer 0 (curated FAQ), layer 1 (exact
match), layer 2 (semantic, guarded by the digit/history conditions) in
order, short-circuiting on the first hit.  Second component: was the
semantic tier consulted? -/
def streamingCacheChain (search_query : Str) (history : List Msg) (o : ChainOracles) :
    Option CachedAnswer × Bool :=
  let c0 : Option CachedAnswer :=
    o.faqHit.map (fun a => (a, [("Official FAQ".toList)], "Layer 0: Manual FAQ"))
  let c1 : Option CachedAnswer :=
    match c0 with
    | some x => some x
    | none => o.redisHit.map (fun r => (r.1, r.2, "Layer 1: Redis Hit"))
  match c1 with
  | some x => (some x, false)
  | none =>
      if !hasDigit search_query && history.isEmpty then
        (o.semanticHit.map (fun r => (r.1, r.2, "Layer 2: Semantic Hit")), true)
      else (none, false)

/-- Blocking cache chain as the source parses: the layer-0 and layer-1 hit
branches are `pass`, and the semantic hit (computed under the same
digit/history guard as the streaming path) is discarded by another `pass`;
no tier ever short-circuits. -/
def blockingCacheChain (search_query : Str) (history : List Msg) (_ : ChainOracles) :
    Option CachedAnswer × Bool :=
  if !hasDigit search_query && history.isEmpty then (none, true) else (none, false)

/-!
### Blocking answer generation (llm_service.py lines 102–128)

`generate_answer` performs a single `chat.completions.create` call inside
`try/except`: a successful call returns the model content, any exception
yields a fixed apology string.  There is no loop, no backoff and no
re-raise.  The transport is abstracted as `attempts : Nat → Except Unit Str`
giving the outcome attempt `i` would have; the result records how many
attempts were made.
-/

/-- The fixed apology returned by `generate_answer` on failure. -/
def apology : Str :=
  "I apologize, but I encountered an error generating the response.".toList

/-- `generate_answer`: (answer, number of transport attempts made). -/
def generate_answer (attempts : Nat → Except Unit Str) : Str × Nat :=
  match attempts 0 with
  | .ok content => (content, 1)
  | .error _ => (apology, 1)

/-!
### Error-phrase gating of cache write-back (chat.py lines 206–218 blocking,
378–386 streaming)

Each path checks its own literal phrase list against the completed answer
and performs the write-backs (exact tier, semantic tier, history) only when
no phrase occurs; the answer itself is delivered either way.
-/

/-- `error_phrases` of the blocking endpoint (line 206). -/
def error_phrases_blocking : List Str :=
  [("I apologize".toList), ("Error generating".toList), ("internal error".toList)]

/-- `error_phrases` of the streaming generator (line 379). -/
def error_phrases_streaming : List Str :=
  [("I apologize".toList), ("Error generating".toList)]

/-- Which side effects the save step performed, plus the delivered answer. -/
structure SaveEffects where
  qaWritten : Bool
  semWritten : Bool
  historyAppended : Bool
  answer : Str
  logStatus : String
deriving DecidableEq, Repr

/-- Save step of the blocking endpoint (lines 205–223). -/
def blockingSave (answer : Str) : SaveEffects :=
  if error_phrases_blocking.any (fun p => substrB p answer) then
    ⟨false, false, false, answer, "LLM Error (Not Cached)"⟩
  else
    ⟨true, true, true, answer, "LLM Generated"⟩

/-- Save step of the streaming generator (lines 377–386); the answer has
already been streamed token by token, `answer` records it. -/
def streamingSave (full_response : Str) : SaveEffects :=
  if error_phrases_streaming.any (fun p => substrB p full_response) then
    ⟨false, false, false, full_response, "Layer 3: Streamed & Re-Ranked"⟩
  else
    ⟨true, true, true, full_response, "Layer 3: Streamed & Re-Ranked"⟩

/-!
### Semantic-cache lookup (vector_db.py lines 101–132)

`search_cache` asks the vector store for the single nearest entry; an empty
result is a miss, and a returned entry is accepted exactly when its
distance is strictly below the threshold.  Distances are modelled as `ℚ`.
-/

/-- Payload of a semantic-cache entry. -/
structure SemHit where
  answer : Str
  sources : List Str
deriving DecidableEq

/-- `search_cache`: `nearest` is the nearest-neighbour result of the query
(`none` when the cache is empty).  A hit additionally reports the distance,
matching the returned dict. -/
def search_cache (nearest : Option (SemHit × ℚ)) (threshold : ℚ) : Option (SemHit × ℚ) :=
  match nearest with
  | none => none
  | some (e, distance) => if distance < threshold then some (e, distance) else none

/-!
### Query contextualisation (llm_service.py lines 10–48)

With empty history the raw question is returned and no generation call is
made.  Otherwise one call is made over the last four history entries; an
empty rewrite, a rewrite longer than four times the question, or a failed
call all fall back to the raw question.  The generation capability is
abstracted as `llm : List Msg → Str → Except Unit Str` (history slice and
question determine the prompt); the result records the number of calls.
-/

/-- `contextualize_query`: (rewritten query, number of generation calls). -/
def contextualize_query (history : List Msg) (current_question : Str)
    (llm : List Msg → Str → Except Unit Str) : Str × Nat :=
  if history.isEmpty then (current_question, 0)
  else
    match llm (lastN 4 history) current_question with
    | .error _ => (current_question, 1)
    | .ok out =>
        let rewritten := trimStr out
        if rewritten.isEmpty || decide (current_question.length * 4 < rewritten.length) then
          (current_question, 1)
        else (rewritten, 1)

/-!
### Cache service (cache_service.py)

The Redis connection is attempted in the constructor; on failure `enabled`
is set to `false` and every operation degrades to a miss or a no-op.  The
md5 of the normalised question is injective on the inputs that matter, so
the key is modelled as the normalised `(product, language, question)`
triple itself.
-/

/-- A stored exact-match payload (`{"answer", "sources", "timestamp"}`). -/
structure QAPayload where
  answer : Str
  sources : List Str
  timestamp : String
deriving DecidableEq

/-- Normalised key triple of `_generate_qa_key`. -/
abbrev QAKey := Str × Str × Str

/-- `_generate_qa_key`: lower/strip the product id (falling back to
`"global"`), the language (falling back to `"en"`) and the question. -/
def generate_qa_key (product_id language : Option Str) (question : Str) : QAKey :=
  ((match product_id with
    | none => "global".toList
    | some p => if p.isEmpty then "global".toList else trimStr (lowerStr p)),
   (match language with
    | none => "en".toList
    | some l => if l.isEmpty then "en".toList else trimStr (lowerStr l)),
   lowerStr (trimStr question))

/-- The state held behind one `CacheService` (the Redis contents plus the
`enabled` flag set by the constructor's connection check). -/
structure CacheState where
  enabled : Bool
  qa : List (QAKey × QAPayload)
  hist : List (Str × List Msg)
deriving DecidableEq

/-- `CacheService.__init__`: `enabled` records whether the connection (and
ping) succeeded; on failure caching is disabled. -/
def cacheInit (connected : Bool) : CacheState := ⟨connected, [], []⟩

/-- `get_qa_cache`: `None` when disabled, else the stored payload. -/
def get_qa_cache (st : CacheState) (product_id language : Option Str) (question : Str) :
    Option QAPayload :=
  if !st.enabled then none
  else (st.qa.find? (fun kv => kv.1 == generate_qa_key product_id language question)).map
    Prod.snd

/-- `set_qa_cache`: no-op when disabled, else overwrite the key atomically. -/
def set_qa_cache (st : CacheState) (product_id language : Option Str) (question : Str)
    (answer : Str) (sources : List Str) : CacheState :=
  if !st.enabled then st
  else
    { st with qa :=
        (generate_qa_key product_id language question, ⟨answer, sources, "APP_NAME"⟩)
          :: st.qa.filter (fun kv => kv.1 != generate_qa_key product_id language question) }

/-- `get_history`: the empty list when disabled or without a session id. -/
def get_history (st : CacheState) (session_id : Str) : List Msg :=
  if !st.enabled || session_id.isEmpty then []
  else ((st.hist.find? (fun kv => kv.1 == session_id)).map Prod.snd).getD []

/-- `add_to_history`: no-op when disabled or without a session id, else
append and trim the list to the last six messages, as `rpush`/`lpop` do. -/
def add_to_history (st : CacheState) (session_id role content : Str) : CacheState :=
  if !st.enabled || session_id.isEmpty then st
  else
    let older := ((st.hist.find? (fun kv => kv.1 == session_id)).map Prod.snd).getD []
    let appended := older ++ [⟨role, content⟩]
    let trimmed := if 6 < appended.length then appended.drop 1 else appended
    { st with hist := (session_id, trimmed) :: st.hist.filter (fun kv => kv.1 != session_id) }

/-!
### Streaming token filter (llm_service.py lines 155–188)

`stream_answer` buffers incoming tokens until it has classified the stream:
a `</think>` occurrence ends the suppressed reasoning block and everything
after it is forwarded; if instead the buffer grows beyond 20 characters
while containing no `<think>`, the buffer is flushed as answer content.
Once classified as answering, tokens are forwarded unchanged.
-/

/-- The opening reasoning delimiter. -/
def thinkOpen : Str := "<think>".toList

/-- The closing reasoning delimiter. -/
def thinkClose : Str := "</think>".toList

/-- Helper for `buffer.split("</think>")[-1]`: `some v` when the closing
delimiter occurs in the string, `v` being the suffix after its last
occurrence (`"</think>"` has no self-overlap, so Python's left-to-right
non-overlapping split ends at the last occurrence). -/
def afterCloseAux : Str → Option Str
  | [] => none
  | c :: t =>
    match afterCloseAux t with
    | some v => some v
    | none =>
        if startsWithB thinkClose (c :: t) then some (t.drop (thinkClose.length - 1))
        else none

/-- `buffer.split("</think>")[-1]` (the whole string when no delimiter). -/
def afterClose (s : Str) : Str := (afterCloseAux s).getD s

/-- Filter state: the unclassified buffer and the answering flag. -/
structure StreamState where
  buffer : Str
  answering : Bool
deriving DecidableEq

/-- One loop iteration of `stream_answer` on a delta `content`. -/
def streamStep (st : StreamState) (content : Str) : StreamState × List Str :=
  if content.isEmpty then (st, [])
  else if st.answering then (st, [content])
  else
    let buffer := st.buffer ++ content
    if substrB thinkClose buffer then
      let answer_start := afterClose buffer
      (⟨[], true⟩, if answer_start.isEmpty then [] else [answer_start])
    else if decide (20 < buffer.length) && !substrB thinkOpen buffer then
      (⟨[], true⟩, [buffer])
    else (⟨buffer, false⟩, [])

/-- The token loop of `stream_answer` from a given state. -/
def streamRun (st : StreamState) : List Str → List Str
  | [] => []
  | t :: ts =>
      let s := streamStep st t
      s.2 ++ streamRun s.1 ts

/-- The sequence of tokens `stream_answer` yields for the given stream of
model deltas (the success path; an exception instead yields one fixed
apology token). -/
def stream_answer_filter (tokens : List Str) : List Str :=
  streamRun ⟨[], false⟩ tokens

/-!
## Helper lemmas
-/

theorem startsWithB_iff (d s : Str) : startsWithB d s = true ↔ ∃ t, s = d ++ t := by
  induction d generalizing s with
  | nil => simp [startsWithB]
  | cons a d ih =>
    cases s with
    | nil => simp [startsWithB]
    | cons b t =>
      simp only [startsWithB, Bool.and_eq_true, beq_iff_eq, ih, List.cons_append,
        List.cons.injEq]
      constructor
      · rintro ⟨rfl, u, rfl⟩; exact ⟨u, rfl, rfl⟩
      · rintro ⟨u, rfl, rfl⟩; exact ⟨rfl, u, rfl⟩

theorem substrB_iff (d s : Str) : substrB d s = true ↔ ∃ u v, s = u ++ d ++ v := by
  induction s with
  | nil =>
    simp only [substrB, List.isEmpty_iff]
    constructor
    · rintro rfl; exact ⟨[], [], rfl⟩
    · rintro ⟨u, v, h⟩
      rcases List.append_eq_nil.mp h.symm with ⟨h1, h2⟩
      exact (List.append_eq_nil.mp h1).2
  | cons c t ih =>
    simp only [substrB, Bool.or_eq_true, startsWithB_iff, ih]
    constructor
    · rintro (⟨u, hu⟩ | ⟨u, v, rfl⟩)
      · exact ⟨[], u, by simpa using hu⟩
      · exact ⟨c :: u, v, rfl⟩
    · rintro ⟨u, v, h⟩
      cases u with
      | nil => exact Or.inl ⟨v, by simpa using h⟩
      | cons c' u' =>
        simp only [List.cons_append, List.cons.injEq] at h
        exact Or.inr ⟨u', v, h.2⟩

theorem substrB_of_left {d s : Str} (u : Str) (h : substrB d s = true) :
    substrB d (s ++ u) = true := by
  rcases (substrB_iff d s).mp h with ⟨x, y, rfl⟩
  exact (substrB_iff d _).mpr ⟨x, y ++ u, by simp⟩

theorem substrB_of_right {d s : Str} (u : Str) (h : substrB d s = true) :
    substrB d (u ++ s) = true := by
  rcases (substrB_iff d s).mp h with ⟨x, y, rfl⟩
  exact (substrB_iff d _).mpr ⟨u ++ x, y, by simp⟩

theorem sortedScoredBlocking_perm (q cs) :
    (sortedScoredBlocking q cs).Perm (scoredChunksBlocking q cs) :=
  List.perm_insertionSort chunkBefore _

theorem sortedScoredBlocking_sorted (q cs) :
    List.Sorted chunkBefore (sortedScoredBlocking q cs) :=
  List.sorted_insertionSort chunkBefore _

theorem sortedScoredBlocking_length (q cs) :
    (sortedScoredBlocking q cs).length = cs.length := by
  rw [(sortedScoredBlocking_perm q cs).length_eq]
  simp [scoredChunksBlocking]

theorem rerankBlocking_length (q cs) :
    (rerankBlocking q cs).length = min 3 cs.length := by
  simp [rerankBlocking, sortedScoredBlocking_length]

theorem rerankBlocking_eq_streaming (q cs) :
    rerankBlocking q cs = rerankStreaming q cs := by
  simp [rerankBlocking, rerankStreaming, sortedScoredBlocking, sortedScoredStreaming,
    scoredChunksBlocking, scoredChunksStreaming, chunkScoreBlocking, chunkScoreStreaming,
    keywordsBlocking, keywordsStreaming]

theorem rerankBlocking_eq_nil_iff (q cs) :
    rerankBlocking q cs = [] ↔ cs = [] := by
  rw [← List.length_eq_zero (l := rerankBlocking q cs), rerankBlocking_length,
    ← List.length_eq_zero (l := cs)]
  omega

theorem sortedScoredBlocking_take_drop (q cs) :
    ∀ a ∈ (sortedScoredBlocking q cs).take 3, ∀ b ∈ (sortedScoredBlocking q cs).drop 3,
      chunkBefore a b := by
  have h := sortedScoredBlocking_sorted q cs
  rw [List.Sorted, ← List.take_append_drop 3 (sortedScoredBlocking q cs),
    List.pairwise_append] at h
  exact h.2.2

theorem afterCloseAux_eq_none (t : Str) :
    afterCloseAux t = none ↔ substrB thinkClose t = false := by
  induction t with
  | nil => simp [afterCloseAux, substrB, thinkClose]
  | cons c t ih =>
    rw [afterCloseAux]
    cases h : afterCloseAux t with
    | some v =>
      have : substrB thinkClose t = true := by
        by_contra hc
        rw [ih.mpr (Bool.eq_false_iff.mpr hc)] at h
        exact Option.noConfusion h
      simp [substrB, this]
    | none =>
      have ht : substrB thinkClose t = false := ih.mp h
      by_cases hs : startsWithB thinkClose (c :: t) = true
      · simp [hs, substrB, ht]
      · simp [Bool.eq_false_iff.mpr hs, substrB, ht]

theorem afterCloseAux_spec (s : Str) : ∀ v : Str, afterCloseAux s = some v →
    (∃ u, s = u ++ thinkClose ++ v) ∧ substrB thinkClose v = false := by
  induction s with
  | nil => intro v h; exact Option.noConfusion h
  | cons c t ih =>
    intro v h
    cases ht : afterCloseAux t with
    | some w =>
      have h' : some w = some v := by rw [afterCloseAux, ht] at h; exact h
      obtain rfl : w = v := Option.some_injective _ h'
      obtain ⟨⟨u, hu⟩, hv⟩ := ih w ht
      exact ⟨⟨c :: u, by simp [hu]⟩, hv⟩
    | none =>
      have h' : (if startsWithB thinkClose (c :: t) = true then
          some (t.drop (thinkClose.length - 1)) else none) = some v := by
        rw [afterCloseAux, ht] at h; exact h
      by_cases hs : startsWithB thinkClose (c :: t) = true
      · rw [if_pos hs] at h'
        obtain rfl : t.drop (thinkClose.length - 1) = v := Option.some_injective _ h'
        obtain ⟨r, hr⟩ := (startsWithB_iff _ _).mp hs
        have hlen : thinkClose.length = 8 := by decide
        have hrv : t.drop (thinkClose.length - 1) = r := by
          have h8 := congrArg (List.drop thinkClose.length) hr
          rw [List.drop_left] at h8
          rw [hlen] at h8 ⊢
          simpa [List.drop_succ_cons] using h8
        refine ⟨⟨[], by rw [hrv]; simpa using hr⟩, ?_⟩
        by_contra hv
        have hv' := Bool.not_eq_false _ |>.mp hv
        have hsub : substrB thinkClose t = true := by
          have := substrB_of_right (t.take (thinkClose.length - 1)) hv'
          rwa [List.take_append_drop] at this
        rw [(afterCloseAux_eq_none t).mp ht] at hsub
        exact Bool.noConfusion hsub
      · rw [if_neg hs] at h'
        exact Option.noConfusion h'

theorem streamRun_answering (ts : List Str) (buf : Str) :
    streamRun ⟨buf, true⟩ ts = ts.filter (fun t => !t.isEmpty) := by
  induction ts with
  | nil => rfl
  | cons t ts ih =>
    by_cases ht : t.isEmpty = true
    · simp [streamRun, streamStep, ht, ih]
    · simp [streamRun, streamStep, Bool.eq_false_iff.mpr ht, ih]

theorem flatten_filter_nonempty (ts : List Str) :
    (ts.filter (fun t => !t.isEmpty)).flatten = ts.flatten := by
  induction ts with
  | nil => rfl
  | cons t ts ih =>
    by_cases ht : t.isEmpty = true
    · have : t = [] := List.isEmpty_iff.mp ht
      simp [this, ih]
    · simp [List.filter_cons, Bool.eq_false_iff.mpr ht, ih]

theorem exists_nonempty_of_flatten_ne_nil {ts : List Str} (h : ts.flatten ≠ []) :
    ∃ t ∈ ts, t ≠ [] := by
  induction ts with
  | nil => simp at h
  | cons t ts ih =>
    by_cases ht : t = []
    · subst ht
      obtain ⟨u, hu, hne⟩ := ih (by simpa using h)
      exact ⟨u, List.mem_cons_of_mem _ hu, hne⟩
    · exact ⟨t, List.mem_cons_self _ _, ht⟩

theorem streamRun_flush : ∀ (ts : List Str) (buf : Str),
    substrB thinkOpen (buf ++ ts.flatten) = false →
    substrB thinkClose (buf ++ ts.flatten) = false →
    20 < (buf ++ ts.flatten).length →
    (∃ t ∈ ts, t ≠ []) →
    (streamRun ⟨buf, false⟩ ts).flatten = buf ++ ts.flatten := by
  intro ts
  induction ts with
  | nil => rintro buf _ _ _ ⟨t, ht, _⟩; exact absurd ht (List.not_mem_nil t)
  | cons t ts ih =>
    intro buf hO hC hL hE
    by_cases ht : t.isEmpty = true
    · obtain rfl : t = [] := List.isEmpty_iff.mp ht
      have hE' : ∃ u ∈ ts, u ≠ [] := by
        obtain ⟨u, hu, hne⟩ := hE
        rcases List.mem_cons.mp hu with rfl | hu
        · exact absurd rfl hne
        · exact ⟨u, hu, hne⟩
      simpa [streamRun, streamStep] using ih buf (by simpa using hO) (by simpa using hC)
        (by simpa using hL) hE'
    · have htB : t.isEmpty = false := Bool.eq_false_iff.mpr ht
      have hassoc : (buf ++ t) ++ ts.flatten = buf ++ (t :: ts).flatten := by simp
      have hC' : substrB thinkClose (buf ++ t) = false := by
        by_contra hc
        have := substrB_of_left ts.flatten (Bool.not_eq_false _ |>.mp hc)
        rw [hassoc, hC] at this
        exact Bool.noConfusion this
      have hO' : substrB thinkOpen (buf ++ t) = false := by
        by_contra hc
        have := substrB_of_left ts.flatten (Bool.not_eq_false _ |>.mp hc)
        rw [hassoc, hO] at this
        exact Bool.noConfusion this
      by_cases h20 : 20 < (buf ++ t).length
      · have h20' : 20 < buf.length + t.length := by simpa using h20
        have hstep : streamStep ⟨buf, false⟩ t = (⟨[], true⟩, [buf ++ t]) := by
          simp [streamStep, htB, hC', hO', h20']
        simp only [streamRun, hstep, streamRun_answering]
        simp [flatten_filter_nonempty]
      · have h20' : ¬20 < buf.length + t.length := by simpa using h20
        have hstep : streamStep ⟨buf, false⟩ t = (⟨buf ++ t, false⟩, []) := by
          simp [streamStep, htB, hC', hO', h20']
        simp only [streamRun, hstep, List.nil_append]
        have hE' : ∃ u ∈ ts, u ≠ [] := by
          apply exists_nonempty_of_flatten_ne_nil
          intro hnil
          rw [← hassoc, hnil, List.append_nil] at hL
          exact h20 hL
        rw [ih (buf ++ t) (by rwa [hassoc]) (by rwa [hassoc]) (by rwa [hassoc]) hE']
        exact hassoc

/-!
## Claim theorems
-/

/-- C2 (counterexample): the claim says `generate_answer` retries a failing
generation call up to 3 times with backoff; the code makes exactly one
attempt even when the transport always fails — it never retries — and then
returns the fixed apology string. -/
theorem C2_counterexample :
    (generate_answer (fun _ => .error ())).2 = 1 ∧
    ¬2 ≤ (generate_answer (fun _ => .error ())).2 ∧
    (generate_answer (fun _ => .error ())).1 = apology := by
  refine ⟨rfl, by decide, rfl⟩

/-- C2 (amended): for every transport behaviour, `generate_answer` makes
exactly one generation attempt; if that attempt fails it returns the fixed
apologetic error string (never propagating the failure), and if it succeeds
it returns the model content. -/
theorem C2_single_attempt_no_retry :
    ∀ attempts : Nat → Except Unit Str,
      (generate_answer attempts).2 = 1 ∧
      (∀ e : Unit, attempts 0 = .error e → (generate_answer attempts).1 = apology) ∧
      (∀ s : Str, attempts 0 = .ok s → (generate_answer attempts).1 = s) := by
  intro attempts
  refine ⟨?_, ?_, ?_⟩
  · unfold generate_answer; cases attempts 0 <;> rfl
  · intro e he; unfold generate_answer; rw [he]
  · intro s hs; unfold generate_answer; rw [hs]

/-- C2 witness: the amended theorem applied to an always-failing and to a
succeeding transport. -/
theorem C2_witness :
    (generate_answer (fun _ => .error ())).1 = apology ∧
    (generate_answer (fun _ => .ok ("fine".toList))).1 = "fine".toList :=
  ⟨(C2_single_attempt_no_retry (fun _ => .error ())).2.1 () rfl,
   (C2_single_attempt_no_retry (fun _ => .ok ("fine".toList))).2.2 _ rfl⟩

/-- C5: `search_cache` returns a hit exactly when the nearest cached entry's
distance is strictly below the threshold; a distance equal to the threshold,
a distance above it, and an empty cache are all misses. -/
theorem C5_search_cache_strict :
    ∀ (t : ℚ) (e : SemHit) (d : ℚ) (nearest : Option (SemHit × ℚ)),
      search_cache none t = none ∧
      (d < t → search_cache (some (e, d)) t = some (e, d)) ∧
      (t ≤ d → search_cache (some (e, d)) t = none) ∧
      search_cache (some (e, t)) t = none ∧
      ((search_cache nearest t).isSome = true →
        ∃ e' d', nearest = some (e', d') ∧ d' < t) := by
  intro t e d nearest
  refine ⟨rfl, ?_, ?_, ?_, ?_⟩
  · intro h; simp [search_cache, h]
  · intro h; simp [search_cache, not_lt.mpr h]
  · simp [search_cache]
  · intro h
    match nearest with
    | none => simp [search_cache] at h
    | some (e', d') =>
        by_cases hd : d' < t
        · exact ⟨e', d', rfl, hd⟩
        · simp [search_cache, hd] at h

/-- C5 witness: at threshold 1/5 (the 0.20 used by the chat routes) a
distance of exactly 1/5 is a miss and a distance of 1/10 is a hit. -/
theorem C5_witness :
    search_cache (some (⟨[], []⟩, (1 : ℚ)/5)) ((1 : ℚ)/5) = none ∧
    search_cache (some (⟨[], []⟩, (1 : ℚ)/10)) ((1 : ℚ)/5) = some (⟨[], []⟩, (1 : ℚ)/10) :=
  ⟨(C5_search_cache_strict ((1 : ℚ)/5) ⟨[], []⟩ 0 none).2.2.2.1,
   (C5_search_cache_strict ((1 : ℚ)/5) ⟨[], []⟩ ((1 : ℚ)/10) none).2.1 (by norm_num)⟩

/-- C10: when the cache store connection could not be established
(`enabled = false`, as the constructor sets on a connection failure), every
cache and history operation degrades to a harmless miss or no-op:
`get_qa_cache` returns `none`, `get_history` returns `[]`, and
`set_qa_cache` / `add_to_history` leave the state unchanged. -/
theorem C10_disabled_cache_degrades :
    ∀ (st : CacheState) (pid lang : Option Str) (q a : Str) (srcs : List Str)
      (sid role content : Str), st.enabled = false →
      get_qa_cache st pid lang q = none ∧
      get_history st sid = [] ∧
      set_qa_cache st pid lang q a srcs = st ∧
      add_to_history st sid role content = st ∧
      (cacheInit false).enabled = false := by
  intro st pid lang q a srcs sid role content h
  refine ⟨?_, ?_, ?_, ?_, rfl⟩ <;>
    simp [get_qa_cache, get_history, set_qa_cache, add_to_history, h]

/-- C10 witness: the degraded behaviour at a concretely constructed
disabled cache service. -/
theorem C10_witness :
    get_qa_cache (cacheInit false) none none ("what is covered".toList) = none ∧
    get_history (cacheInit false) ("session1".toList) = [] ∧
    set_qa_cache (cacheInit false) none none ("what is covered".toList) ("a".toList) [] =
      cacheInit false ∧
    add_to_history (cacheInit false) ("session1".toList) ("user".toList) ("hi".toList) =
      cacheInit false := by
  obtain ⟨h1, h2, h3, h4, -⟩ :=
    C10_disabled_cache_degrades (cacheInit false) none none ("what is covered".toList)
      ("a".toList) [] ("session1".toList) ("user".toList) ("hi".toList) rfl
  exact ⟨h1, h2, h3, h4⟩

theorem blockingSave_qa_iff (a : Str) :
    (blockingSave a).qaWritten = true ↔ ∀ p ∈ error_phrases_blocking, substrB p a = false := by
  unfold blockingSave
  by_cases h : error_phrases_blocking.any (fun p => substrB p a) = true
  · obtain ⟨p, hp, hps⟩ := List.any_eq_true.mp h
    simp only [h, if_true, Bool.false_eq_true, false_iff]
    intro hall
    rw [hall p hp] at hps
    exact Bool.noConfusion hps
  · have h' : error_phrases_blocking.any (fun p => substrB p a) = false :=
      Bool.eq_false_iff.mpr h
    simp only [h', Bool.false_eq_true, if_false, true_iff]
    intro p hp
    by_contra hc
    exact h (List.any_eq_true.mpr ⟨p, hp, Bool.not_eq_false _ |>.mp hc⟩)

theorem streamingSave_qa_iff (a : Str) :
    (streamingSave a).qaWritten = true ↔ ∀ p ∈ error_phrases_streaming, substrB p a = false := by
  unfold streamingSave
  by_cases h : error_phrases_streaming.any (fun p => substrB p a) = true
  · obtain ⟨p, hp, hps⟩ := List.any_eq_true.mp h
    simp only [h, if_true, Bool.false_eq_true, false_iff]
    intro hall
    rw [hall p hp] at hps
    exact Bool.noConfusion hps
  · have h' : error_phrases_streaming.any (fun p => substrB p a) = false :=
      Bool.eq_false_iff.mpr h
    simp only [h', Bool.false_eq_true, if_false, true_iff]
    intro p hp
    by_contra hc
    exact h (List.any_eq_true.mpr ⟨p, hp, Bool.not_eq_false _ |>.mp hc⟩)

/-- C3 (counterexample): the claim assumes one fixed failure-phrase set
governing write-back on both paths, but the two paths use different sets:
the completed answer "internal error" is excluded from write-back by the
blocking endpoint and written back by the streaming generator. -/
theorem C3_counterexample :
    (blockingSave ("internal error".toList)).qaWritten = false ∧
    (blockingSave ("internal error".toList)).semWritten = false ∧
    (streamingSave ("internal error".toList)).qaWritten = true ∧
    (streamingSave ("internal error".toList)).semWritten = true ∧
    error_phrases_blocking ≠ error_phrases_streaming := by
  refine ⟨by decide, by decide, by decide, by decide, by decide⟩

/-- C3 (amended): each path gates write-back on its own phrase list —
blocking on ["I apologize", "Error generating", "internal error"], streaming
on ["I apologize", "Error generating"] — and within each path both cache
tiers (and the history append) are written exactly when the answer contains
none of that path's phrases; the answer itself is delivered either way. -/
theorem C3_error_phrase_gating :
    ∀ a : Str,
      ((blockingSave a).qaWritten = true ↔ ∀ p ∈ error_phrases_blocking, substrB p a = false) ∧
      (blockingSave a).semWritten = (blockingSave a).qaWritten ∧
      (blockingSave a).historyAppended = (blockingSave a).qaWritten ∧
      (blockingSave a).answer = a ∧
      ((streamingSave a).qaWritten = true ↔ ∀ p ∈ error_phrases_streaming, substrB p a = false) ∧
      (streamingSave a).semWritten = (streamingSave a).qaWritten ∧
      (streamingSave a).historyAppended = (streamingSave a).qaWritten ∧
      (streamingSave a).answer = a := by
  intro a
  refine ⟨blockingSave_qa_iff a, ?_, ?_, ?_, streamingSave_qa_iff a, ?_, ?_, ?_⟩ <;>
    · simp only [blockingSave, streamingSave]
      split <;> rfl

/-- C3 witness: a clean answer is written back on both paths; an answer
containing "I apologize" is written back on neither. -/
theorem C3_witness :
    (blockingSave ("The sum insured is 5 lakhs".toList)).qaWritten = true ∧
    (streamingSave ("The sum insured is 5 lakhs".toList)).qaWritten = true :=
  ⟨(C3_error_phrase_gating ("The sum insured is 5 lakhs".toList)).1.mpr (by decide),
   (C3_error_phrase_gating ("The sum insured is 5 lakhs".toList)).2.2.2.2.1.mpr (by decide)⟩

/-- C6: the semantic tier is consulted only on requests whose contextualized
query has no digit and whose session history is empty, independent of the
cache contents: on the blocking path the consult condition is exactly
`no digit ∧ empty history`, and on the streaming path a consult implies it;
a digit in the query or a non-empty history rules the consult out on both. -/
theorem C6_semantic_gate :
    ∀ (q : Str) (history : List Msg) (o : ChainOracles),
      ((blockingCacheChain q history o).2 = (!hasDigit q && history.isEmpty)) ∧
      ((streamingCacheChain q history o).2 = true → hasDigit q = false ∧ history = []) ∧
      (hasDigit q = true ∨ history ≠ [] →
        (blockingCacheChain q history o).2 = false ∧
        (streamingCacheChain q history o).2 = false) := by
  intro q history o
  have hblock : (blockingCacheChain q history o).2 = (!hasDigit q && history.isEmpty) := by
    unfold blockingCacheChain
    by_cases hc : (!hasDigit q && history.isEmpty) = true
    · rw [if_pos hc, hc]
    · rw [if_neg hc, Bool.eq_false_iff.mpr hc]
  have hstream : (streamingCacheChain q history o).2 = true →
      (!hasDigit q && history.isEmpty) = true := by
    intro h2
    unfold streamingCacheChain at h2
    cases hf : o.faqHit with
    | some a => simp [hf] at h2
    | none =>
      cases hr : o.redisHit with
      | some r => simp [hf, hr] at h2
      | none =>
        simp only [hf, hr, Option.map_none] at h2
        by_cases hc : (!hasDigit q && history.isEmpty) = true
        · exact hc
        · rw [if_neg hc] at h2
          exact absurd h2 Bool.false_ne_true
  refine ⟨hblock, ?_, ?_⟩
  · intro h2
    have hand := hstream h2
    have hd : hasDigit q = false := by
      by_contra hc
      rw [Bool.not_eq_false _ |>.mp hc] at hand
      simp at hand
    have he : history = [] := by
      cases history with
      | nil => rfl
      | cons m ms => simp at hand
    exact ⟨hd, he⟩
  · intro hcond
    have hfalse : (!hasDigit q && history.isEmpty) = false := by
      rcases hcond with h | h
      · simp [h]
      · cases history with
        | nil => exact absurd rfl h
        | cons m ms => simp
    constructor
    · rw [hblock, hfalse]
    · by_contra hc
      have := hstream (Bool.not_eq_false _ |>.mp hc)
      rw [hfalse] at this
      exact Bool.noConfusion this

/-- C6 witness: with a digit in the query neither path consults the
semantic tier, even with a populated semantic cache. -/
theorem C6_witness :
    (blockingCacheChain ("plan 5 premium".toList) []
      ⟨none, none, some (("a".toList), [])⟩).2 = false ∧
    (streamingCacheChain ("plan 5 premium".toList) []
      ⟨none, none, some (("a".toList), [])⟩).2 = false :=
  (C6_semantic_gate ("plan 5 premium".toList) [] ⟨none, none, some (("a".toList), [])⟩).2.2
    (Or.inl (by decide))

/-- C7: `contextualize_query` returns the raw question with no generation
call on empty history; on non-empty history it makes exactly one call whose
prompt depends only on the last four history entries, falls back to the raw
question when the trimmed rewrite is empty or longer than four times the raw
question, returns the rewrite otherwise, and returns the raw question when
the call fails (it cannot raise). -/
theorem C7_contextualize :
    ∀ (history : List Msg) (q : Str) (llm : List Msg → Str → Except Unit Str),
      (history = [] → contextualize_query history q llm = (q, 0)) ∧
      (history ≠ [] → (contextualize_query history q llm).2 = 1) ∧
      (lastN 4 history).length ≤ 4 ∧
      (∀ history2, history ≠ [] → history2 ≠ [] → lastN 4 history = lastN 4 history2 →
        contextualize_query history q llm = contextualize_query history2 q llm) ∧
      (∀ e : Unit, history ≠ [] → llm (lastN 4 history) q = .error e →
        (contextualize_query history q llm).1 = q) ∧
      (∀ out : Str, history ≠ [] → llm (lastN 4 history) q = .ok out →
        ((trimStr out = [] ∨ q.length * 4 < (trimStr out).length) →
          (contextualize_query history q llm).1 = q) ∧
        (trimStr out ≠ [] → (trimStr out).length ≤ q.length * 4 →
          (contextualize_query history q llm).1 = trimStr out)) := by
  intro history q llm
  have hEmpty : ∀ l : List Msg, l ≠ [] → l.isEmpty = false := by
    intro l hl
    cases l with
    | nil => exact absurd rfl hl
    | cons m ms => rfl
  refine ⟨?_, ?_, ?_, ?_, ?_, ?_⟩
  · rintro rfl; rfl
  · intro hne
    unfold contextualize_query
    rw [hEmpty history hne]
    simp only [Bool.false_eq_true, if_false]
    cases llm (lastN 4 history) q with
    | error e => rfl
    | ok out => dsimp only; split <;> rfl
  · unfold lastN
    rw [List.length_drop]
    omega
  · intro history2 h1 h2 hl
    unfold contextualize_query
    rw [hEmpty history h1, hEmpty history2 h2, hl]
  · intro e hne herr
    unfold contextualize_query
    rw [hEmpty history hne]
    simp only [Bool.false_eq_true, if_false]
    rw [herr]
  · intro out hne hok
    unfold contextualize_query
    rw [hEmpty history hne]
    simp only [Bool.false_eq_true, if_false]
    rw [hok]
    dsimp only
    constructor
    · intro hbad
      have hcond : ((trimStr out).isEmpty
          || decide (q.length * 4 < (trimStr out).length)) = true := by
        rcases hbad with h | h
        · simp [h]
        · simp [h]
      rw [if_pos hcond]
    · intro hne2 hlen
      have h1 : (trimStr out).isEmpty = false := by
        cases htr : trimStr out with
        | nil => exact absurd htr hne2
        | cons c cs => rfl
      have h2 : decide (q.length * 4 < (trimStr out).length) = false := by
        simp [Nat.not_lt.mpr hlen]
      rw [if_neg (by simp [h1, h2])]

/-- C7 witness: the theorem applied to a one-entry history with a clean
rewrite, to a failing call, and to an empty history. -/
theorem C7_witness :
    contextualize_query [] ("what is covered?".toList)
      (fun _ _ => .ok ("anything".toList)) = (("what is covered?".toList), 0) ∧
    (contextualize_query [⟨("user".toList), ("tell me about plan A".toList)⟩]
      ("and for children?".toList) (fun _ _ => .ok (" what does plan A cover? ".toList))).1 =
      trimStr (" what does plan A cover? ".toList) ∧
    (contextualize_query [⟨("user".toList), ("tell me about plan A".toList)⟩]
      ("and for children?".toList) (fun _ _ => .error ())).1 = "and for children?".toList := by
  refine ⟨(C7_contextualize [] _ _).1 rfl, ?_, ?_⟩
  · exact ((C7_contextualize [⟨("user".toList), ("tell me about plan A".toList)⟩]
      ("and for children?".toList) (fun _ _ => .ok (" what does plan A cover? ".toList))).2.2.2.2.2
      (" what does plan A cover? ".toList) (by decide) rfl).2 (by decide) (by decide)
  · exact (C7_contextualize [⟨("user".toList), ("tell me about plan A".toList)⟩]
      ("and for children?".toList) (fun _ _ => .error ())).2.2.2.2.1 () (by decide) rfl

/-- C1 (counterexample): the two endpoints do not make identical routing
decisions.  Their summary keyword sets differ — "compare plans" is summary
intent only on the blocking path, while the streaming path instead fires its
comparison trigger on the same query — and an exact-match cache hit
short-circuits only the streaming path (the blocking hit branch is `pass`). -/
theorem C1_counterexample :
    isSummaryBlocking ("compare plans".toList) = true ∧
    isSummaryStreaming ("compare plans".toList) = false ∧
    isComparisonStreaming ("compare plans".toList) = true ∧
    summary_keywords_blocking ≠ summary_keywords_streaming ∧
    (blockingCacheChain ("what is covered".toList) []
      ⟨none, some (("cached answer".toList), []), none⟩).1 = none ∧
    (streamingCacheChain ("what is covered".toList) []
      ⟨none, some (("cached answer".toList), []), none⟩).1 =
      some (("cached answer".toList), [], "Layer 1: Redis Hit") := by
  refine ⟨by decide, by decide, by decide, by decide, rfl, rfl⟩

/-- C1 (amended): the divergences and the agreements between the paths.
Blocking summary intent equals streaming summary intent except for the
extra "compare plans" keyword; the blocking cache chain never
short-circuits (all its hit branches are `pass`) while the streaming chain
returns an exact-match hit; the candidate re-ranking of the two paths is
identical. -/
theorem C1_routing_divergence :
    (∀ q : Str, isSummaryBlocking q =
      (isSummaryStreaming q || substrB ("compare plans".toList) (lowerStr q))) ∧
    (∀ (q : Str) (history : List Msg) (o : ChainOracles),
      (blockingCacheChain q history o).1 = none) ∧
    (∀ (q : Str) (history : List Msg) (o : ChainOracles) (a : Str) (s : List Str),
      o.faqHit = none → o.redisHit = some (a, s) →
      (streamingCacheChain q history o).1 = some (a, s, "Layer 1: Redis Hit")) ∧
    (∀ (q : Str) (cs : List Str), rerankBlocking q cs = rerankStreaming q cs) := by
  refine ⟨?_, ?_, ?_, rerankBlocking_eq_streaming⟩
  · intro q
    simp only [isSummaryBlocking, isSummaryStreaming, summary_keywords_blocking,
      summary_keywords_streaming, List.any_cons, List.any_nil]
    generalize substrB ("various plans".toList) (lowerStr q) = b1
    generalize substrB ("all plans".toList) (lowerStr q) = b2
    generalize substrB ("list plans".toList) (lowerStr q) = b3
    generalize substrB ("compare plans".toList) (lowerStr q) = b4
    generalize substrB ("types of insurance".toList) (lowerStr q) = b5
    generalize substrB ("what plans".toList) (lowerStr q) = b6
    revert b1 b2 b3 b4 b5 b6
    decide
  · intro q history o
    unfold blockingCacheChain
    split <;> rfl
  · intro q history o a s hf hr
    simp [streamingCacheChain, hf, hr]

/-- C1 witness: the streaming chain short-circuits on a concrete
exact-match hit. -/
theorem C1_witness :
    (streamingCacheChain ("hello".toList) []
      ⟨none, some (("ans".toList), []), none⟩).1 =
      some (("ans".toList), [], "Layer 1: Redis Hit") :=
  C1_routing_divergence.2.2.1 ("hello".toList) [] ⟨none, some (("ans".toList), []), none⟩
    ("ans".toList) [] rfl rfl

/-- C4: re-ranking scores +10 per query token longer than 3 characters
found case-insensitively in the chunk, +5 for digits, −20 for boilerplate,
−10 for OCR garbage (embodied by `chunkScoreBlocking`); the candidates are
sorted descending by score with ties favouring the earlier retrieval rank,
exactly the top 3 are selected; on the specification's example the
"Sum Insured is 5 Lakhs" chunk scores 15 and is ranked first. -/
theorem C4_rerank :
    (∀ (q : Str) (cs : List Str), (rerankBlocking q cs).length = min 3 cs.length) ∧
    (∀ (q : Str) (cs : List Str), List.Sorted chunkBefore (sortedScoredBlocking q cs)) ∧
    (∀ (q : Str) (cs : List Str), (sortedScoredBlocking q cs).Perm (scoredChunksBlocking q cs)) ∧
    (∀ (q : Str) (cs : List Str), ∀ a ∈ (sortedScoredBlocking q cs).take 3,
      ∀ b ∈ (sortedScoredBlocking q cs).drop 3, chunkBefore a b) ∧
    keywordsBlocking exQuery = [("what".toList), ("insured".toList)] ∧
    chunkScoreBlocking (keywordsBlocking exQuery) exDisclaimer = -20 ∧
    chunkScoreBlocking (keywordsBlocking exQuery) exSumInsured = 15 ∧
    chunkScoreBlocking (keywordsBlocking exQuery) exRegdOffice = -20 ∧
    rerankBlocking exQuery [exDisclaimer, exSumInsured, exRegdOffice] =
      [exSumInsured, exDisclaimer, exRegdOffice] :=
  ⟨rerankBlocking_length, sortedScoredBlocking_sorted, sortedScoredBlocking_perm,
   sortedScoredBlocking_take_drop, by decide, by decide, by decide, by decide, by decide⟩

/-- C4 witness: with a fourth, higher-scoring neutral candidate the
selected top-3 element dominates the dropped boilerplate chunk. -/
theorem C4_witness :
    (⟨exSumInsured, 15, 1⟩ : ScoredChunk) ∈
      (sortedScoredBlocking exQuery [exDisclaimer, exSumInsured, exRegdOffice, exNeutral]).take 3 ∧
    (⟨exRegdOffice, -20, 2⟩ : ScoredChunk) ∈
      (sortedScoredBlocking exQuery [exDisclaimer, exSumInsured, exRegdOffice, exNeutral]).drop 3 ∧
    chunkBefore ⟨exSumInsured, 15, 1⟩ ⟨exRegdOffice, -20, 2⟩ := by
  refine ⟨by decide, by decide, ?_⟩
  exact C4_rerank.2.2.2.1 exQuery [exDisclaimer, exSumInsured, exRegdOffice, exNeutral]
    ⟨exSumInsured, 15, 1⟩ (by decide) ⟨exRegdOffice, -20, 2⟩ (by decide)

/-- C9 (counterexample): with every retrieved candidate scoring below zero
(all boilerplate — the situation the claim's fallback is for), the pipeline
still selects all three of them in tie-broken order, not the first 2 raw
candidates: no below-usable filtering and no 2-chunk fallback exist. -/
theorem C9_counterexample :
    chunkScoreBlocking (keywordsBlocking exQuery)
      ("Disclaimer: terms and conditions apply".toList) = -20 ∧
    chunkScoreBlocking (keywordsBlocking exQuery) ("Regd. Office at Mumbai".toList) = -20 ∧
    chunkScoreBlocking (keywordsBlocking exQuery)
      ("Disclaimer: read the policy wording".toList) = -20 ∧
    (rerankBlocking exQuery boilerplateOnlyChunks).length = 3 ∧
    rerankBlocking exQuery boilerplateOnlyChunks ≠ boilerplateOnlyChunks.take 2 := by
  refine ⟨by decide, by decide, by decide, by decide, by decide⟩

/-- C9 (amended): no candidate is ever filtered out by scoring — the scored
selection is empty exactly when the raw candidate list is empty, and
otherwise the pipeline proceeds with the top `min 3 n` scored candidates on
both paths; there is no fallback to the first 2 raw candidates. -/
theorem C9_no_below_usable_filter :
    ∀ (q : Str) (cs : List Str),
      (rerankBlocking q cs = [] ↔ cs = []) ∧
      (rerankBlocking q cs).length = min 3 cs.length ∧
      (rerankStreaming q cs = [] ↔ cs = []) := by
  intro q cs
  refine ⟨rerankBlocking_eq_nil_iff q cs, rerankBlocking_length q cs, ?_⟩
  rw [← rerankBlocking_eq_streaming]
  exact rerankBlocking_eq_nil_iff q cs

/-- C9 witness: the amended theorem applied to an empty and to the
all-boilerplate candidate list. -/
theorem C9_witness :
    rerankBlocking exQuery [] = [] ∧
    (rerankBlocking exQuery boilerplateOnlyChunks ≠ []) :=
  ⟨(C9_no_below_usable_filter exQuery []).1.mpr rfl,
   fun h => by
     have h3 := (C9_no_below_usable_filter exQuery boilerplateOnlyChunks).1.mp h
     exact absurd h3 (by decide)⟩

/-- C8 (counterexample): a stream that opens a `<think>` block and never
closes it is entirely swallowed even though the buffered length exceeds the
bound — the flush also requires the buffer not to contain `<think>`, which
the claim omits. -/
theorem C8_counterexample :
    20 < ("<think> reasoning that never closes".toList : Str).length ∧
    substrB thinkClose ("<think> reasoning that never closes".toList) = false ∧
    substrB thinkOpen ("<think> reasoning that never closes".toList) = true ∧
    stream_answer_filter [("<think> reasoning that never closes".toList)] = [] := by
  refine ⟨by decide, by decide, by decide, by decide⟩

/-- C8 (amended): when the closing delimiter appears while buffering, only
the suffix after its last occurrence is forwarded (then everything else
verbatim); and a stream whose content contains neither delimiter and
exceeds the 20-character bound is flushed and forwarded in full — nothing
is swallowed in that case. -/
theorem C8_stream_filter :
    (∀ (t : Str) (rest : List Str), substrB thinkClose t = true →
      (∃ u, t = u ++ thinkClose ++ afterClose t) ∧
      substrB thinkClose (afterClose t) = false ∧
      stream_answer_filter (t :: rest) =
        (if (afterClose t).isEmpty then [] else [afterClose t]) ++
          rest.filter (fun x => !x.isEmpty)) ∧
    (∀ tokens : List Str, substrB thinkOpen tokens.flatten = false →
      substrB thinkClose tokens.flatten = false →
      20 < tokens.flatten.length →
      (stream_answer_filter tokens).flatten = tokens.flatten) := by
  constructor
  · intro t rest h
    have htne : t.isEmpty = false := by
      cases t with
      | nil => simp [substrB, thinkClose] at h
      | cons c cs => rfl
    obtain ⟨v, hA⟩ : ∃ v, afterCloseAux t = some v := by
      cases hA : afterCloseAux t with
      | none => rw [(afterCloseAux_eq_none t).mp hA] at h; exact Bool.noConfusion h
      | some v => exact ⟨v, rfl⟩
    have hAv : afterClose t = v := by simp [afterClose, hA]
    obtain ⟨⟨u, hu⟩, hnc⟩ := afterCloseAux_spec t v hA
    refine ⟨⟨u, by rw [hAv]; exact hu⟩, by rw [hAv]; exact hnc, ?_⟩
    have hstep : streamStep ⟨[], false⟩ t =
        (⟨[], true⟩, if (afterClose t).isEmpty then [] else [afterClose t]) := by
      simp [streamStep, htne, h, afterClose]
    unfold stream_answer_filter streamRun
    rw [hstep]
    simp [streamRun_answering]
  · intro tokens hO hC hL
    have hne : ∃ t ∈ tokens, t ≠ [] := by
      apply exists_nonempty_of_flatten_ne_nil
      intro h0
      rw [h0] at hL
      simp at hL
    simpa using streamRun_flush tokens [] (by simpa using hO) (by simpa using hC)
      (by simpa using hL) hne

/-- C8 witness: the amended theorem applied to a single token containing a
reasoning block and to a delimiter-free stream longer than the bound. -/
theorem C8_witness :
    stream_answer_filter [("x</think>hello".toList)] =
      (if (afterClose ("x</think>hello".toList)).isEmpty then []
        else [afterClose ("x</think>hello".toList)]) ++
        List.filter (fun x => !x.isEmpty) ([] : List Str) ∧
    (stream_answer_filter [("a plain answer well over twenty characters".toList)]).flatten =
      ([("a plain answer well over twenty characters".toList)] : List Str).flatten :=
  ⟨(C8_stream_filter.1 ("x</think>hello".toList) [] (by decide)).2.2,
   C8_stream_filter.2 [("a plain answer well over twenty characters".toList)]
     (by decide) (by decide) (by decide)⟩

end Chatbot
